import Mathlib

/-!
Verification of the kenchi detector base classes and of the anomaly-score
plotting helper.

The development shallowly embeds the three source modules:

* `kenchi/base.py` — abstract `BaseDetector` (abstract `fit` and
  `compute_anomaly_score`, concrete `predict` and `fit_predict`) together with
  `DetectorMixin.score` (F1 from a confusion matrix);
* `kenchi/outlier_detection/base.py` — a second `BaseDetector` variant
  (abstract `fit` and `anomaly_score`, concrete `predict` with an optional
  threshold override and `fit_predict`);
* `kenchi/visualization.py` — the numeric skeleton of `plot_anomaly_score`.

Modelling conventions:

* numpy arrays of scores are `List ℚ` (one entry per sample) or
  `List (List ℚ)` (one row per sample), label arrays are `List ℤ`;
* numpy float division is modelled by `PyFloat` (a rational, `nan`, or a
  signed infinity) so that the IEEE behaviour of `0/0` is kept;
* Python exceptions are surfaced through `Except PyError`;
* a Python method on a detector object is a function taking the detector's
  behaviour (the abstract methods, bundled in a structure) and the current
  attribute state, and returning its result together with the state after the
  call, so that mutation — and its absence — is explicit;
* the input-validation collaborators `check_array` and `check_X_y` only
  validate (they raise on malformed input and otherwise return the data
  unchanged); inputs here are modelled as already validated, so these calls
  are identities.
-/

namespace kenchi

/-- Decidable equality for `Except` results, so that concrete runs of the
modelled methods can be checked by `decide`. -/
instance {ε α : Type} [DecidableEq ε] [DecidableEq α] : DecidableEq (Except ε α) :=
  fun x y =>
    match x, y with
    | .error a, .error b =>
        if h : a = b then .isTrue (congrArg Except.error h)
        else .isFalse fun hc => h (Except.error.inj hc)
    | .ok a, .ok b =>
        if h : a = b then .isTrue (congrArg Except.ok h)
        else .isFalse fun hc => h (Except.ok.inj hc)
    | .error _, .ok _ => .isFalse fun hc => Except.noConfusion hc
    | .ok _, .error _ => .isFalse fun hc => Except.noConfusion hc

/-- Python exception values raised by the modelled code paths:
`AttributeError` (reading a missing attribute), sklearn's `NotFittedError`
(raised by `check_is_fitted`), and `ValueError` (raised by numpy reductions
on empty input). -/
inductive PyError where
  | attributeError (attr : String)
  | notFittedError (attr : String)
  | valueError (msg : String)
  deriving DecidableEq

/-- An IEEE-754 double as produced by numpy arithmetic on finite inputs:
either a finite value (kept exact as a rational), `nan`, or a signed
infinity. Signed zero is not modelled (no modelled code path distinguishes
`-0.0` from `0.0`). -/
inductive PyFloat where
  | nan
  | inf
  | ninf
  | val (q : ℚ)
  deriving DecidableEq

/-- IEEE addition on `PyFloat`: `nan` absorbs, opposite infinities give
`nan`. -/
def pfAdd : PyFloat → PyFloat → PyFloat
  | .nan, _ => .nan
  | _, .nan => .nan
  | .inf, .ninf => .nan
  | .ninf, .inf => .nan
  | .inf, _ => .inf
  | _, .inf => .inf
  | .ninf, _ => .ninf
  | _, .ninf => .ninf
  | .val a, .val b => .val (a + b)

/-- IEEE multiplication on `PyFloat`: `nan` absorbs, `inf * 0` gives
`nan`, otherwise infinities follow the sign rule. -/
def pfMul : PyFloat → PyFloat → PyFloat
  | .nan, _ => .nan
  | _, .nan => .nan
  | .inf, .inf => .inf
  | .inf, .ninf => .ninf
  | .ninf, .inf => .ninf
  | .ninf, .ninf => .inf
  | .inf, .val b => if b = 0 then .nan else if 0 < b then .inf else .ninf
  | .val a, .inf => if a = 0 then .nan else if 0 < a then .inf else .ninf
  | .ninf, .val b => if b = 0 then .nan else if 0 < b then .ninf else .inf
  | .val a, .ninf => if a = 0 then .nan else if 0 < a then .ninf else .inf
  | .val a, .val b => .val (a * b)

/-- IEEE division on `PyFloat`: `nan` absorbs, `inf/inf` gives `nan`,
finite `0/0` gives `nan`, finite nonzero over zero gives a signed infinity
(numpy emits a warning in these cases but returns the value, it does not
raise). -/
def pfDiv : PyFloat → PyFloat → PyFloat
  | .nan, _ => .nan
  | _, .nan => .nan
  | .inf, .inf => .nan
  | .inf, .ninf => .nan
  | .ninf, .inf => .nan
  | .ninf, .ninf => .nan
  | .inf, .val b => if b < 0 then .ninf else .inf
  | .ninf, .val b => if b < 0 then .inf else .ninf
  | .val _, .inf => .val 0
  | .val _, .ninf => .val 0
  | .val a, .val b =>
      if b = 0 then
        if a = 0 then .nan else if 0 < a then .inf else .ninf
      else .val (a / b)

/-- Entries of `confusion_matrix(y, p, labels=[1, 0]).ravel()` — the sklearn
confusion matrix restricted to the label list `[1, 0]`, flattened row-major,
exactly as unpacked by `DetectorMixin.score`:
`(tp, fn, fp, tn)` where `tp` counts samples with true label 1 and predicted
label 1, `fn` true 1 predicted 0, `fp` true 0 predicted 1 and `tn` true 0
predicted 0. -/
def confusionCounts (ytrue ypred : List ℤ) : ℕ × ℕ × ℕ × ℕ :=
  let pairs := ytrue.zip ypred
  ( pairs.count ((1 : ℤ), (1 : ℤ))
  , pairs.count ((1 : ℤ), (0 : ℤ))
  , pairs.count ((0 : ℤ), (1 : ℤ))
  , pairs.count ((0 : ℤ), (0 : ℤ)) )

namespace base

/-- The `_threshold` attribute of `kenchi/base.py`'s `BaseDetector`: the
`predict` body branches on `isinstance(self._threshold, float)`, so the
attribute is either a float scalar or a per-column array of boundaries. -/
inductive Threshold where
  | scalar (t : ℚ)
  | perColumn (ts : List ℚ)
  deriving DecidableEq

/-- Shallow embedding of `kenchi/base.py`'s `BaseDetector`. The abstract
methods `fit` and `compute_anomaly_score` are fields (the source declares
them `@abstractmethod`, concrete subclasses are outside this repository);
`threshOf` reads the `self._threshold` attribute, `none` meaning the
attribute is not set (per the spec it is set during `fit`).
`compute_anomaly_score` is a pure function of the fitted state and the
input, as the contract requires; the same Python method returns a
one-score-per-sample vector when the threshold is a scalar and a
per-sample-per-column matrix when the threshold is per-column, so the two
shapes appear as two fields. -/
structure BaseDetector (Data St : Type) where
  fit : St → Data → Option (List ℤ) → St
  compute_anomaly_score : St → Data → List ℚ
  compute_anomaly_score2 : St → Data → List (List ℚ)
  threshOf : St → Option Threshold

/-- The row-wise step of `np.any(score > self._threshold, axis=1)`: the
broadcast elementwise comparison of one score row against the per-column
threshold array, reduced with any. -/
def anyExceeds (row ts : List ℚ) : Bool :=
  (row.zip ts).any fun pr => decide (pr.2 < pr.1)

/-- `BaseDetector.predict` of `kenchi/base.py`:
`X = check_array(X)` (validation only), then if `self._threshold` is a float
return `(self.compute_anomaly_score(X) > self._threshold).astype(np.int32)`,
else return
`np.any(self.compute_anomaly_score(X) > self._threshold, axis=1).astype(np.int32)`.
Reading `self._threshold` on an unfitted detector raises `AttributeError`.
The body assigns no attribute and `compute_anomaly_score` is pure, so the
returned state is the received state. -/
def predict {Data St : Type} (D : BaseDetector Data St) (st : St) (X : Data) :
    Except PyError (List ℤ) × St :=
  match D.threshOf st with
  | none => (.error (.attributeError "_threshold"), st)
  | some (.scalar t) =>
      (.ok ((D.compute_anomaly_score st X).map fun s => if t < s then (1 : ℤ) else 0), st)
  | some (.perColumn ts) =>
      (.ok ((D.compute_anomaly_score2 st X).map fun row =>
        if anyExceeds row ts then (1 : ℤ) else 0), st)

/-- `BaseDetector.fit_predict` of `kenchi/base.py`:
`return self.fit(X, y).predict(X)`. -/
def fit_predict {Data St : Type} (D : BaseDetector Data St) (st : St) (X : Data)
    (y : Option (List ℤ)) : Except PyError (List ℤ) × St :=
  predict D (D.fit st X y) X

/-- `DetectorMixin.score` of `kenchi/base.py`:
`X, y = check_X_y(X, y)` (validation only), then
`tp, fn, fp, tn = np.ravel(confusion_matrix(y, self.predict(X), [1, 0]))`,
`r0 = tn / (fp + tn)`, `r1 = tp / (tp + fn)`, and the result is
`2.0 * r0 * r1 / (r0 + r1)`. The integer counts are promoted to floats by
the true divisions; a zero denominator follows IEEE semantics (`PyFloat`).
Exceptions raised by `self.predict` propagate. -/
def score {Data St : Type} (D : BaseDetector Data St) (st : St) (X : Data)
    (y : List ℤ) : Except PyError PyFloat × St :=
  match predict D st X with
  | (.error e, st1) => (.error e, st1)
  | (.ok p, st1) =>
      match confusionCounts y p with
      | (tp, fn, fp, tn) =>
          let r0 := pfDiv (.val (tn : ℚ)) (.val ((fp : ℚ) + (tn : ℚ)))
          let r1 := pfDiv (.val (tp : ℚ)) (.val ((tp : ℚ) + (fn : ℚ)))
          (.ok (pfDiv (pfMul (pfMul (.val 2) r0) r1) (pfAdd r0 r1)), st1)

end base

namespace outlier_detection

/-- Shallow embedding of `kenchi/outlier_detection/base.py`'s
`BaseDetector`. The abstract methods `fit` and `anomaly_score` are fields
(`fit_predict` forwards no `y` to `fit`, so `fit` takes only the data);
`anomaly_score` takes an optional input, mirroring its `X: ArrayLike=None`
signature. `thresholdOf` reads the fitted `threshold_` attribute, `none`
meaning the detector is not fitted (`check_is_fitted(self, 'threshold_')`
then raises `NotFittedError`). -/
structure BaseDetector (Data St : Type) where
  fit : St → Data → St
  anomaly_score : St → Option Data → List ℚ
  thresholdOf : St → Option ℚ

/-- `BaseDetector.predict` of `kenchi/outlier_detection/base.py`:
`check_is_fitted(self, 'threshold_')`, then
`if threshold is None: threshold = self.threshold_`, then
`return np.where(self.anomaly_score(X) <= threshold, 1, -1)`.
The body assigns no attribute and `anomaly_score` is pure, so the returned
state is the received state. -/
def predict {Data St : Type} (D : BaseDetector Data St) (st : St) (X : Option Data)
    (threshold : Option ℚ) : Except PyError (List ℤ) × St :=
  match D.thresholdOf st with
  | none => (.error (.notFittedError "threshold_"), st)
  | some tfit =>
      let t := threshold.getD tfit
      (.ok ((D.anomaly_score st X).map fun s => if s ≤ t then (1 : ℤ) else -1), st)

/-- `BaseDetector.fit_predict` of `kenchi/outlier_detection/base.py`:
`return self.fit(X, **fit_params).predict(threshold=threshold)` — note that
no data is passed to `predict`, so `predict` runs with `X = None`. -/
def fit_predict {Data St : Type} (D : BaseDetector Data St) (st : St) (X : Data)
    (threshold : Option ℚ) : Except PyError (List ℤ) × St :=
  predict D (D.fit st X) none threshold

end outlier_detection

namespace visualization

/-- The display state computed by `plot_anomaly_score` before it is handed
to matplotlib: the effective axis limits, the x locations `np.arange(n)`,
the optional horizontal threshold line, the plotted series, and whether the
side histogram is drawn. -/
structure PlotResult where
  xlim : ℚ × ℚ
  ylim : ℚ × ℚ
  xlocs : List ℕ
  hline : Option ℚ
  series : List ℚ
  histDrawn : Bool
  deriving DecidableEq

/-- `np.max` on a one-dimensional array: raises `ValueError` on a zero-size
array, otherwise returns the maximum entry. -/
def npMax (l : List ℚ) : Except PyError ℚ :=
  match l with
  | [] => .error (.valueError "zero-size array to reduction operation maximum which has no identity")
  | a :: rest => .ok (rest.foldl max a)

/-- Numeric skeleton of `plot_anomaly_score` (`kenchi/visualization.py`):
`n_samples, = anomaly_score.shape`, `xlocs = np.arange(n_samples)`,
`xlim = (0., n_samples - 1.)` when not supplied,
`ylim = (0., 1.1 * np.max(anomaly_score))` when not supplied — the point
where an empty array raises —, the optional `ax.hlines(threshold, ...)`,
and the plot plus optional side histogram. The matplotlib rendering calls
(`subplots`, `set_*`, `plot`, `hist`, `savefig`) are collaborators that
succeed on the data reaching them and are represented by the returned
`PlotResult`; `ax`, `bins`, `figsize`, `grid`, the title and axis labels,
and `filepath` only affect rendering and are omitted. The defaults of the
remaining parameters are `threshold = none`, `xlim = none`, `ylim = none`,
`hist = true`. -/
def plot_anomaly_score (anomaly_score : List ℚ) (threshold : Option ℚ)
    (xlim ylim : Option (ℚ × ℚ)) (hist : Bool) : Except PyError PlotResult :=
  let n := anomaly_score.length
  let xlocs := List.range n
  let xl := xlim.getD (0, (n : ℚ) - 1)
  let yl : Except PyError (ℚ × ℚ) :=
    match ylim with
    | some p => .ok p
    | none => (npMax anomaly_score).map fun m => (0, 11 / 10 * m)
  yl.map fun p =>
    { xlim := xl, ylim := p, xlocs := xlocs, hline := threshold,
      series := anomaly_score, histDrawn := hist }

end visualization

/-- Modelled from the spec: a minimal concrete detector for
`kenchi/base.py` — the concrete subclasses, which implement the abstract
`fit` and `compute_anomaly_score`, are not under `src/`. Per the spec the
threshold is "set during `fit`" and `compute_anomaly_score` is a "pure
function of fitted state and input" returning "one score per row"; this
instance scores each sample by its own value (its row scores repeating that
value in both columns) and its `fit` learns the scalar threshold 1. -/
def idDetA : base.BaseDetector (List ℚ) (Option base.Threshold) where
  fit := fun _ _ _ => some (.scalar 1)
  compute_anomaly_score := fun _ X => X
  compute_anomaly_score2 := fun _ X => X.map fun v => [v, v]
  threshOf := fun st => st

/-- Modelled from the spec: a minimal concrete detector for
`kenchi/outlier_detection/base.py` — the concrete subclasses, which
implement the abstract `fit` and `anomaly_score`, are not under `src/`.
The state after `fit` holds the training data and the learned `threshold_`
(the spec: the threshold is "set during `fit`"); `anomaly_score` scores
each sample by its own value and, on `X = None`, scores the stored training
data — the convention `fit_predict` relies on when it calls
`predict(threshold=threshold)` without data yet documents labels for the
`n_samples` training rows. -/
def idDetB : outlier_detection.BaseDetector (List ℚ) (Option (List ℚ × ℚ)) where
  fit := fun _ X => some (X, 1)
  anomaly_score := fun st oX =>
    match oX with
    | some X => X
    | none =>
        match st with
        | some p => p.1
        | none => []
  thresholdOf := fun st => st.map fun p => p.2

/-! Helper lemmas. -/

theorem pfAdd_nan_left (y : PyFloat) : pfAdd .nan y = .nan := by cases y <;> rfl

theorem pfAdd_nan_right (x : PyFloat) : pfAdd x .nan = .nan := by cases x <;> rfl

theorem pfMul_nan_left (y : PyFloat) : pfMul .nan y = .nan := by cases y <;> rfl

theorem pfMul_nan_right (x : PyFloat) : pfMul x .nan = .nan := by cases x <;> rfl

theorem pfDiv_nan_left (y : PyFloat) : pfDiv .nan y = .nan := by cases y <;> rfl

theorem pfDiv_val_val (a b : ℚ) :
    pfDiv (.val a) (.val b) =
      if b = 0 then (if a = 0 then .nan else if 0 < a then .inf else .ninf)
      else .val (a / b) := rfl

theorem pfMul_val_val (a b : ℚ) : pfMul (.val a) (.val b) = .val (a * b) := rfl

theorem pfAdd_val_val (a b : ℚ) : pfAdd (.val a) (.val b) = .val (a + b) := rfl

/-- The state returned by `kenchi/base.py`'s `predict` is the state it was
called with (no branch assigns an attribute). -/
theorem base.predict_keeps_state_A {Data St : Type} (D : base.BaseDetector Data St)
    (st : St) (X : Data) : (base.predict D st X).2 = st := by
  cases h : D.threshOf st with
  | none => simp [base.predict, h]
  | some th => cases th <;> simp [base.predict, h]

/-- The state returned by `outlier_detection/base.py`'s `predict` is the
state it was called with. -/
theorem outlier_detection.predict_keeps_state_B {Data St : Type}
    (D : outlier_detection.BaseDetector Data St) (st : St) (X : Option Data)
    (threshold : Option ℚ) : (outlier_detection.predict D st X threshold).2 = st := by
  cases h : D.thresholdOf st with
  | none => simp [outlier_detection.predict, h]
  | some t => simp [outlier_detection.predict, h]

/-- The state returned by `DetectorMixin.score` is the state it was called
with. -/
theorem base.score_state_eq {Data St : Type} (D : base.BaseDetector Data St)
    (st : St) (X : Data) (y : List ℤ) : (base.score D st X y).2 = st := by
  have h2 := base.predict_keeps_state_A D st X
  cases hp : base.predict D st X with
  | mk r st1 =>
      rw [hp] at h2
      cases r <;> simp_all [base.score, hp]

/-- An element of a list pairs with the aligned element of an equally long
list inside their zip. -/
theorem exists_pair_mem_zip {α β : Type} {a : α} {l₁ : List α} {l₂ : List β}
    (ha : a ∈ l₁) (h : l₁.length = l₂.length) :
    ∃ b, b ∈ l₂ ∧ (a, b) ∈ l₁.zip l₂ := by
  obtain ⟨i, hi, hget⟩ := List.mem_iff_getElem.mp ha
  have hi2 : i < l₂.length := h ▸ hi
  have hiz : i < (l₁.zip l₂).length := by
    rw [List.length_zip]; omega
  refine ⟨l₂[i], List.getElem_mem hi2, ?_⟩
  have hz : (l₁.zip l₂)[i] = (l₁[i], l₂[i]) := List.getElem_zip
  rw [hget] at hz
  exact hz ▸ List.getElem_mem hiz

/-- An element of a list self-pairs inside the zip of the list with
itself. -/
theorem pair_self_mem_zip {α : Type} {a : α} {l : List α} (ha : a ∈ l) :
    (a, a) ∈ l.zip l := by
  obtain ⟨i, hi, hget⟩ := List.mem_iff_getElem.mp ha
  have hiz : i < (l.zip l).length := by
    rw [List.length_zip]; omega
  have hz : (l.zip l)[i] = (l[i], l[i]) := List.getElem_zip
  rw [hget] at hz
  exact hz ▸ List.getElem_mem hiz

/-- Both components of a pair drawn from the zip of a list with itself are
equal. -/
theorem zip_self_components_eq {α : Type} {pr : α × α} {l : List α}
    (h : pr ∈ l.zip l) : pr.1 = pr.2 := by
  obtain ⟨i, hi, hget⟩ := List.mem_iff_getElem.mp h
  have hil : i < l.length := by
    rw [List.length_zip] at hi; omega
  have hz : (l.zip l)[i] = (l[i], l[i]) := List.getElem_zip
  rw [hz] at hget
  rw [show pr.1 = l[i] from congrArg Prod.fst hget.symm,
    show pr.2 = l[i] from congrArg Prod.snd hget.symm]

/-- Labels produced by the fitted `kenchi/base.py` `predict` are 0 or 1. -/
theorem base.predict_mem_labels {Data St : Type} {D : base.BaseDetector Data St}
    {st : St} {X : Data} {p : List ℤ} (hp : (base.predict D st X).1 = .ok p) :
    ∀ b ∈ p, b = 0 ∨ b = 1 := by
  cases h : D.threshOf st with
  | none => simp [base.predict, h] at hp
  | some th =>
      cases th with
      | scalar t =>
          simp only [base.predict, h, Except.ok.injEq] at hp
          intro b hb
          rw [← hp] at hb
          obtain ⟨a, _, hab⟩ := List.mem_map.mp hb
          by_cases hc : t < a
          · right; rw [← hab, if_pos hc]
          · left; rw [← hab, if_neg hc]
      | perColumn ts =>
          simp only [base.predict, h, Except.ok.injEq] at hp
          intro b hb
          rw [← hp] at hb
          obtain ⟨a, _, hab⟩ := List.mem_map.mp hb
          by_cases hc : base.anyExceeds a ts
          · right; rw [← hab, if_pos hc]
          · left; rw [← hab, if_neg hc]

/-- `anyExceeds row ts` holds exactly when some column's score strictly
exceeds that column's threshold (for rows matching the broadcast shape). -/
theorem anyExceeds_iff {row ts : List ℚ} (h : row.length = ts.length) :
    base.anyExceeds row ts = true ↔
      ∃ j, ∃ hj : j < row.length, ∃ hj2 : j < ts.length, ts[j] < row[j] := by
  unfold base.anyExceeds
  rw [List.any_eq_true]
  constructor
  · rintro ⟨pr, hmem, hpr⟩
    obtain ⟨i, hi, hget⟩ := List.mem_iff_getElem.mp hmem
    have hir : i < row.length := by rw [List.length_zip] at hi; omega
    have hit : i < ts.length := by rw [List.length_zip] at hi; omega
    have hz : (row.zip ts)[i] = (row[i], ts[i]) := List.getElem_zip
    rw [hz] at hget
    subst hget
    simp only [decide_eq_true_eq] at hpr
    exact ⟨i, hir, hit, hpr⟩
  · rintro ⟨j, hj, hj2, hlt⟩
    have hjz : j < (row.zip ts).length := by rw [List.length_zip]; omega
    refine ⟨(row[j], ts[j]), ?_, by simpa using hlt⟩
    have hz : (row.zip ts)[j] = (row[j], ts[j]) := List.getElem_zip
    exact hz ▸ List.getElem_mem hjz

/-! Claim theorems. -/

/-- C1: for every fitted detector, each element of the `predict` output lies
in the variant's two-value label convention, determined by threshold
comparison: the `kenchi/base.py` variant returns 1 for a sample exactly when
its anomaly score exceeds the (scalar) `_threshold` and 0 otherwise, while
the `kenchi/outlier_detection/base.py` variant returns -1 exactly when its
anomaly score exceeds the fitted `threshold_` and 1 otherwise. -/
theorem C1_predict_label_convention {Data St Db Sb : Type}
    (D : base.BaseDetector Data St) (st : St) (X : Data) (t : ℚ)
    (B : outlier_detection.BaseDetector Db Sb) (sb : Sb) (Xb : Option Db) (tb : ℚ) :
    (D.threshOf st = some (.scalar t) →
      ∃ out, (base.predict D st X).1 = .ok out ∧
        out.length = (D.compute_anomaly_score st X).length ∧
        ∀ i (h : i < out.length) (h2 : i < (D.compute_anomaly_score st X).length),
          (out[i] = 1 ↔ t < (D.compute_anomaly_score st X)[i]) ∧
          (out[i] = 0 ∨ out[i] = 1)) ∧
    (B.thresholdOf sb = some tb →
      ∃ out, (outlier_detection.predict B sb Xb none).1 = .ok out ∧
        out.length = (B.anomaly_score sb Xb).length ∧
        ∀ i (h : i < out.length) (h2 : i < (B.anomaly_score sb Xb).length),
          (out[i] = -1 ↔ tb < (B.anomaly_score sb Xb)[i]) ∧
          (out[i] = -1 ∨ out[i] = 1)) := by
  constructor
  · intro hA
    refine ⟨(D.compute_anomaly_score st X).map fun s => if t < s then (1 : ℤ) else 0,
      by simp [base.predict, hA], by simp, ?_⟩
    intro i h h2
    rw [List.getElem_map]
    constructor
    · by_cases hc : t < (D.compute_anomaly_score st X)[i]
      · rw [if_pos hc]; exact iff_of_true rfl hc
      · rw [if_neg hc]; exact iff_of_false (by decide) hc
    · by_cases hc : t < (D.compute_anomaly_score st X)[i]
      · right; rw [if_pos hc]
      · left; rw [if_neg hc]
  · intro hB
    refine ⟨(B.anomaly_score sb Xb).map fun s => if s ≤ tb then (1 : ℤ) else -1,
      by simp [outlier_detection.predict, hB], by simp, ?_⟩
    intro i h h2
    rw [List.getElem_map]
    constructor
    · by_cases hc : (B.anomaly_score sb Xb)[i] ≤ tb
      · rw [if_pos hc]
        exact iff_of_false (by decide) (not_lt.mpr hc)
      · rw [if_neg hc]
        exact iff_of_true rfl (not_le.mp hc)
    · by_cases hc : (B.anomaly_score sb Xb)[i] ≤ tb
      · right; rw [if_pos hc]
      · left; rw [if_neg hc]

/-- Witness for C1 at a concrete fitted detector of each variant. -/
theorem C1_predict_label_convention_witness :
    (∃ out, (base.predict idDetA (some (.scalar 1)) [0, 2]).1 = .ok out ∧
      out.length = (idDetA.compute_anomaly_score (some (.scalar 1)) [0, 2]).length ∧
      ∀ i (h : i < out.length)
        (h2 : i < (idDetA.compute_anomaly_score (some (.scalar 1)) [0, 2]).length),
        (out[i] = 1 ↔ 1 < (idDetA.compute_anomaly_score (some (.scalar 1)) [0, 2])[i]) ∧
        (out[i] = 0 ∨ out[i] = 1)) ∧
    (∃ out, (outlier_detection.predict idDetB (some ([3], 1)) (some [0, 2]) none).1 = .ok out ∧
      out.length = (idDetB.anomaly_score (some ([3], 1)) (some [0, 2])).length ∧
      ∀ i (h : i < out.length)
        (h2 : i < (idDetB.anomaly_score (some ([3], 1)) (some [0, 2])).length),
        (out[i] = -1 ↔ 1 < (idDetB.anomaly_score (some ([3], 1)) (some [0, 2]))[i]) ∧
        (out[i] = -1 ∨ out[i] = 1)) :=
  ⟨(C1_predict_label_convention idDetA (some (.scalar 1)) [0, 2] 1
      idDetB (some ([3], 1)) (some [0, 2]) 1).1 rfl,
   (C1_predict_label_convention idDetA (some (.scalar 1)) [0, 2] 1
      idDetB (some ([3], 1)) (some [0, 2]) 1).2 rfl⟩

/-- C2: `fit_predict(X)` returns the same label array as `fit(X)` followed by
`predict(X)` with no threshold override. In `kenchi/base.py` this is the
literal composition `self.fit(X, y).predict(X)`; in
`kenchi/outlier_detection/base.py` `fit_predict` calls
`predict(threshold=None)` with `X = None`, which agrees with
`predict(X)` under the contract that, after fitting on `X`, `anomaly_score`
on `None` scores the training data `X`. -/
theorem C2_fit_predict_composition {Data St Db Sb : Type}
    (D : base.BaseDetector Data St) (st : St) (X : Data) (y : Option (List ℤ))
    (B : outlier_detection.BaseDetector Db Sb) (sb : Sb) (Xb : Db) :
    (base.fit_predict D st X y).1 = (base.predict D (D.fit st X y) X).1 ∧
    (B.anomaly_score (B.fit sb Xb) none = B.anomaly_score (B.fit sb Xb) (some Xb) →
      (outlier_detection.fit_predict B sb Xb none).1 =
        (outlier_detection.predict B (B.fit sb Xb) (some Xb) none).1) := by
  refine ⟨rfl, ?_⟩
  intro hnone
  cases hth : B.thresholdOf (B.fit sb Xb) with
  | none => simp [outlier_detection.fit_predict, outlier_detection.predict, hth]
  | some u =>
      simp [outlier_detection.fit_predict, outlier_detection.predict, hth, hnone]

/-- Witness for C2 at a concrete detector of each variant. -/
theorem C2_fit_predict_composition_witness :
    (base.fit_predict idDetA none [0, 2] none).1 =
      (base.predict idDetA (idDetA.fit none [0, 2] none) [0, 2]).1 ∧
    (outlier_detection.fit_predict idDetB none [0, 2] none).1 =
      (outlier_detection.predict idDetB (idDetB.fit none [0, 2]) (some [0, 2]) none).1 :=
  ⟨(C2_fit_predict_composition idDetA none [0, 2] none idDetB none [0, 2]).1,
   (C2_fit_predict_composition idDetA none [0, 2] none idDetB none [0, 2]).2 rfl⟩

/-- C3: `predict(X, threshold=t)` on a fitted detector classifies with `t`
exactly, ignoring the fitted `threshold_`: it returns the comparison of the
anomaly scores against `t`, and two fitted states with identical
anomaly-score behaviour (and arbitrary, possibly different, fitted
thresholds) produce identical output under the same override `t`. -/
theorem C3_threshold_override {Db Sb Sb2 : Type}
    (B1 : outlier_detection.BaseDetector Db Sb)
    (B2 : outlier_detection.BaseDetector Db Sb2)
    (s1 : Sb) (s2 : Sb2) (X : Option Db) (t u1 u2 : ℚ)
    (h1 : B1.thresholdOf s1 = some u1) (h2 : B2.thresholdOf s2 = some u2)
    (hs : B1.anomaly_score s1 X = B2.anomaly_score s2 X) :
    (outlier_detection.predict B1 s1 X (some t)).1 =
      .ok ((B1.anomaly_score s1 X).map fun s => if s ≤ t then (1 : ℤ) else -1) ∧
    (outlier_detection.predict B1 s1 X (some t)).1 =
      (outlier_detection.predict B2 s2 X (some t)).1 := by
  constructor
  · simp [outlier_detection.predict, h1]
  · simp [outlier_detection.predict, h1, h2, hs]

/-- Witness for C3: the same scores under two different fitted thresholds
give the same override classification. -/
theorem C3_threshold_override_witness :
    (outlier_detection.predict idDetB (some ([], 1)) (some [0, 2]) (some 1)).1 =
      .ok ((idDetB.anomaly_score (some ([], 1)) (some [0, 2])).map
        fun s => if s ≤ 1 then (1 : ℤ) else -1) ∧
    (outlier_detection.predict idDetB (some ([], 1)) (some [0, 2]) (some 1)).1 =
      (outlier_detection.predict idDetB (some ([], 5)) (some [0, 2]) (some 1)).1 :=
  C3_threshold_override idDetB idDetB (some ([], 1)) (some ([], 5))
    (some [0, 2]) 1 1 5 rfl rfl rfl

/-- C4: calling `predict` on a detector on which `fit` has not run never
returns a label array; it raises at once — in
`kenchi/outlier_detection/base.py` the `NotFittedError` of
`check_is_fitted(self, 'threshold_')`, and in `kenchi/base.py` (which has
no `check_is_fitted`) the `AttributeError` from reading the missing
`_threshold` attribute, the error sklearn's not-fitted error specializes. -/
theorem C4_unfitted_predict_raises {Data St Db Sb : Type}
    (D : base.BaseDetector Data St) (st : St) (X : Data)
    (B : outlier_detection.BaseDetector Db Sb) (sb : Sb) (Xb : Option Db)
    (thr : Option ℚ)
    (hA : D.threshOf st = none) (hB : B.thresholdOf sb = none) :
    (base.predict D st X).1 = .error (.attributeError "_threshold") ∧
    (∀ out, (base.predict D st X).1 ≠ .ok out) ∧
    (outlier_detection.predict B sb Xb thr).1 = .error (.notFittedError "threshold_") ∧
    (∀ out, (outlier_detection.predict B sb Xb thr).1 ≠ .ok out) := by
  have e1 : (base.predict D st X).1 = .error (.attributeError "_threshold") := by
    simp [base.predict, hA]
  have e2 : (outlier_detection.predict B sb Xb thr).1 =
      .error (.notFittedError "threshold_") := by
    simp [outlier_detection.predict, hB]
  refine ⟨e1, ?_, e2, ?_⟩
  · intro out hc; rw [e1] at hc; exact Except.noConfusion hc
  · intro out hc; rw [e2] at hc; exact Except.noConfusion hc

/-- Witness for C4 at concrete unfitted detectors of both variants. -/
theorem C4_unfitted_predict_raises_witness :
    (base.predict idDetA none [0, 2]).1 = .error (.attributeError "_threshold") ∧
    (∀ out, (base.predict idDetA none [0, 2]).1 ≠ .ok out) ∧
    (outlier_detection.predict idDetB none (some [0, 2]) none).1 =
      .error (.notFittedError "threshold_") ∧
    (∀ out, (outlier_detection.predict idDetB none (some [0, 2]) none).1 ≠ .ok out) :=
  C4_unfitted_predict_raises idDetA none [0, 2] idDetB none (some [0, 2]) none rfl rfl

/-- C9: `predict` (both variants) and the mixin `score` return the detector
state unchanged — their bodies assign no attribute and the abstract scoring
methods they call are pure by the contract — so only `fit` can mutate the
detector. -/
theorem C9_predict_score_state_unchanged {Data St Db Sb : Type}
    (D : base.BaseDetector Data St) (st : St) (X : Data) (y : List ℤ)
    (B : outlier_detection.BaseDetector Db Sb) (sb : Sb) (Xb : Option Db)
    (thr : Option ℚ) :
    (base.predict D st X).2 = st ∧
    (base.score D st X y).2 = st ∧
    (outlier_detection.predict B sb Xb thr).2 = sb :=
  ⟨base.predict_keeps_state_A D st X, base.score_state_eq D st X y,
   outlier_detection.predict_keeps_state_B B sb Xb thr⟩

/-- C10: a sample whose anomaly score equals the scalar threshold exactly is
classified as an inlier in both variants: `kenchi/base.py` labels it 0
(`score > threshold` is false) and `kenchi/outlier_detection/base.py`
labels it 1 (`score <= threshold` is true). -/
theorem C10_boundary_score_is_inlier {Data St Db Sb : Type}
    (D : base.BaseDetector Data St) (st : St) (X : Data) (t : ℚ) (i : ℕ)
    (B : outlier_detection.BaseDetector Db Sb) (sb : Sb) (Xb : Option Db)
    (tb : ℚ) (j : ℕ) :
    (∀ (_hA : D.threshOf st = some (.scalar t))
        (hi : i < (D.compute_anomaly_score st X).length),
        (D.compute_anomaly_score st X)[i] = t →
        ∃ out, (base.predict D st X).1 = .ok out ∧
          ∃ hi2 : i < out.length, out[i] = 0) ∧
    (∀ (_hB : B.thresholdOf sb = some tb)
        (hj : j < (B.anomaly_score sb Xb).length),
        (B.anomaly_score sb Xb)[j] = tb →
        ∃ out, (outlier_detection.predict B sb Xb none).1 = .ok out ∧
          ∃ hj2 : j < out.length, out[j] = 1) := by
  constructor
  · intro hA hi heq
    refine ⟨(D.compute_anomaly_score st X).map fun s => if t < s then (1 : ℤ) else 0,
      by simp [base.predict, hA], ?_, ?_⟩
    · simpa using hi
    · rw [List.getElem_map, heq, if_neg (lt_irrefl t)]
  · intro hB hj heq
    refine ⟨(B.anomaly_score sb Xb).map fun s => if s ≤ tb then (1 : ℤ) else -1,
      by simp [outlier_detection.predict, hB], ?_, ?_⟩
    · simpa using hj
    · rw [List.getElem_map, heq, if_pos (le_refl tb)]

/-- Witness for C10: concrete samples scoring exactly at the threshold are
labelled inliers (0 in one variant, 1 in the other). -/
theorem C10_boundary_score_is_inlier_witness :
    (∃ out, (base.predict idDetA (some (.scalar 1)) [1, 2]).1 = .ok out ∧
      ∃ hi2 : 0 < out.length, out[0] = 0) ∧
    (∃ out, (outlier_detection.predict idDetB (some ([], 1)) (some [1, 3]) none).1 = .ok out ∧
      ∃ hj2 : 0 < out.length, out[0] = 1) :=
  ⟨(C10_boundary_score_is_inlier idDetA (some (.scalar 1)) [1, 2] 1 0
      idDetB (some ([], 1)) (some [1, 3]) 1 0).1 rfl (by decide) rfl,
   (C10_boundary_score_is_inlier idDetA (some (.scalar 1)) [1, 2] 1 0
      idDetB (some ([], 1)) (some [1, 3]) 1 0).2 rfl (by decide) rfl⟩

/-- C5 counterexample: on a fitted detector with `y = [1, 1]` — class 0
entirely absent — the mixin `score` does not raise; it returns the value
NaN (the silent result of the `0/0` in `tn / (fp + tn)`), refuting the
claim that an explicit error is raised. -/
theorem C5_score_class_absent_counterexample :
    (base.score idDetA (some (.scalar 1)) [0, 2] [1, 1]).1 = .ok .nan := by
  have hpair : base.predict idDetA (some (.scalar 1)) [0, 2] =
      (.ok [0, 1], some (.scalar 1)) := by decide
  have hcc : confusionCounts [1, 1] [0, 1] = (1, 1, 0, 0) := by decide
  simp only [base.score, hpair, hcc]
  norm_num [pfDiv_val_val, pfMul_nan_left, pfMul_nan_right,
    pfAdd_nan_left, pfDiv_nan_left]

/-- C5 amended: for every fitted detector and every labelled input whose
`y` misses one of the two classes entirely, the mixin `score` silently
returns NaN (the IEEE result of the `0/0` division on the empty class's
counts); it raises no error. -/
theorem C5_score_class_absent_silent_nan {Data St : Type}
    (D : base.BaseDetector Data St) (st : St) (X : Data) (y : List ℤ)
    (th : base.Threshold) (hfit : D.threshOf st = some th)
    (habsent : (∀ a ∈ y, a ≠ 0) ∨ (∀ a ∈ y, a ≠ 1)) :
    (base.score D st X y).1 = .ok .nan := by
  obtain ⟨p, hpp⟩ : ∃ p, base.predict D st X = (.ok p, st) := by
    cases th with
    | scalar t =>
        exact ⟨(D.compute_anomaly_score st X).map fun s => if t < s then (1 : ℤ) else 0,
          by simp [base.predict, hfit]⟩
    | perColumn ts =>
        exact ⟨(D.compute_anomaly_score2 st X).map
            fun row => if base.anyExceeds row ts then (1 : ℤ) else 0,
          by simp [base.predict, hfit]⟩
  rcases habsent with h | h
  · have hfp : ((y.zip p).count ((0 : ℤ), (1 : ℤ))) = 0 :=
      List.count_eq_zero.mpr fun hmem => (h 0 (List.of_mem_zip hmem).1) rfl
    have htn : ((y.zip p).count ((0 : ℤ), (0 : ℤ))) = 0 :=
      List.count_eq_zero.mpr fun hmem => (h 0 (List.of_mem_zip hmem).1) rfl
    simp only [base.score, hpp, confusionCounts]
    rw [hfp, htn]
    norm_num [pfDiv_val_val, pfMul_nan_left, pfMul_nan_right,
      pfAdd_nan_left, pfDiv_nan_left]
  · have htp : ((y.zip p).count ((1 : ℤ), (1 : ℤ))) = 0 :=
      List.count_eq_zero.mpr fun hmem => (h 1 (List.of_mem_zip hmem).1) rfl
    have hfn : ((y.zip p).count ((1 : ℤ), (0 : ℤ))) = 0 :=
      List.count_eq_zero.mpr fun hmem => (h 1 (List.of_mem_zip hmem).1) rfl
    simp only [base.score, hpp, confusionCounts]
    rw [htp, hfn]
    norm_num [pfDiv_val_val, pfMul_nan_right, pfAdd_nan_right,
      pfDiv_nan_left]

/-- Witness for the amended C5 at a concrete fitted detector with class 1
absent from `y`. -/
theorem C5_score_class_absent_silent_nan_witness :
    (base.score idDetA (some (.scalar 1)) [0, 2] [0, 0]).1 = .ok .nan :=
  C5_score_class_absent_silent_nan idDetA (some (.scalar 1)) [0, 2] [0, 0]
    (.scalar 1) rfl (Or.inr (by decide))

/-- C6: for every fitted detector and labelled input whose `y` contains both
classes, the mixin `score` equals the harmonic mean `2*r0*r1/(r0+r1)` of
the specificity `r0 = tn/(fp+tn)` and the sensitivity `r1 = tp/(tp+fn)`
taken from the confusion matrix of `y` against `predict(X)` (whenever that
harmonic mean is defined, i.e. `r0 + r1 ≠ 0`); in particular the score is
1.0 when `predict(X)` matches `y` exactly. -/
theorem C6_score_f1_harmonic_mean {Data St : Type}
    (D : base.BaseDetector Data St) (st : St) (X : Data) (y p : List ℤ)
    (tp fn fp tn : ℕ) (r0 r1 : ℚ)
    (hp : (base.predict D st X).1 = .ok p)
    (hlen : y.length = p.length)
    (h0 : (0 : ℤ) ∈ y) (h1 : (1 : ℤ) ∈ y)
    (hcc : confusionCounts y p = (tp, fn, fp, tn))
    (hr0 : r0 = (tn : ℚ) / ((fp : ℚ) + (tn : ℚ)))
    (hr1 : r1 = (tp : ℚ) / ((tp : ℚ) + (fn : ℚ))) :
    (r0 + r1 ≠ 0 →
      (base.score D st X y).1 = .ok (.val (2 * r0 * r1 / (r0 + r1)))) ∧
    (y = p → (base.score D st X y).1 = .ok (.val 1)) := by
  have hpp : base.predict D st X = (.ok p, st) :=
    Prod.ext hp (base.predict_keeps_state_A D st X)
  have hmem : ∀ b ∈ p, b = 0 ∨ b = 1 := base.predict_mem_labels hp
  have hcc' := hcc
  simp only [confusionCounts, Prod.mk.injEq] at hcc'
  obtain ⟨htp, hfn, hfp, htn⟩ := hcc'
  have hfptn : fp + tn ≠ 0 := by
    obtain ⟨b, hbp, hpairz⟩ := exists_pair_mem_zip h0 hlen
    rcases hmem b hbp with hb | hb
    · subst hb
      have hpos := List.count_pos_iff.mpr hpairz
      rw [htn] at hpos
      omega
    · subst hb
      have hpos := List.count_pos_iff.mpr hpairz
      rw [hfp] at hpos
      omega
  have htpfn : tp + fn ≠ 0 := by
    obtain ⟨b, hbp, hpairz⟩ := exists_pair_mem_zip h1 hlen
    rcases hmem b hbp with hb | hb
    · subst hb
      have hpos := List.count_pos_iff.mpr hpairz
      rw [hfn] at hpos
      omega
    · subst hb
      have hpos := List.count_pos_iff.mpr hpairz
      rw [htp] at hpos
      omega
  have hd0 : ((fp : ℚ) + (tn : ℚ)) ≠ 0 := by
    rw [← Nat.cast_add]
    exact Nat.cast_ne_zero.mpr hfptn
  have hd1 : ((tp : ℚ) + (fn : ℚ)) ≠ 0 := by
    rw [← Nat.cast_add]
    exact Nat.cast_ne_zero.mpr htpfn
  have hmain : (base.score D st X y).1 =
      .ok (pfDiv (.val (2 * r0 * r1)) (.val (r0 + r1))) := by
    simp only [base.score, hpp, confusionCounts, htp, hfn, hfp, htn]
    rw [pfDiv_val_val, pfDiv_val_val, if_neg hd0, if_neg hd1, ← hr0, ← hr1,
      pfMul_val_val, pfMul_val_val, pfAdd_val_val]
  constructor
  · intro hne
    rw [hmain, pfDiv_val_val, if_neg hne]
  · intro hyp
    subst hyp
    have hfn0 : fn = 0 := by
      rw [← hfn]
      exact List.count_eq_zero.mpr fun hmem2 =>
        absurd (zip_self_components_eq hmem2) (by decide)
    have hfp0 : fp = 0 := by
      rw [← hfp]
      exact List.count_eq_zero.mpr fun hmem2 =>
        absurd (zip_self_components_eq hmem2) (by decide)
    have htn0 : tn ≠ 0 := by
      have hpos := List.count_pos_iff.mpr (pair_self_mem_zip h0)
      rw [htn] at hpos
      omega
    have htp0 : tp ≠ 0 := by
      have hpos := List.count_pos_iff.mpr (pair_self_mem_zip h1)
      rw [htp] at hpos
      omega
    have hr0' : r0 = 1 := by
      rw [hr0, hfp0, Nat.cast_zero, zero_add,
        div_self (Nat.cast_ne_zero.mpr htn0)]
    have hr1' : r1 = 1 := by
      rw [hr1, hfn0, Nat.cast_zero, add_zero,
        div_self (Nat.cast_ne_zero.mpr htp0)]
    rw [hmain, hr0', hr1']
    norm_num [pfDiv_val_val]

/-- Witness for C6: perfect predictions on a concrete fitted detector give
score 1. -/
theorem C6_score_f1_harmonic_mean_witness :
    (base.score idDetA (some (.scalar 1)) [0, 2] [0, 1]).1 = .ok (.val 1) :=
  (C6_score_f1_harmonic_mean idDetA (some (.scalar 1)) [0, 2] [0, 1] [0, 1]
    1 0 0 1 1 1 (by decide) rfl (by decide) (by decide) (by decide)
    (by norm_num) (by norm_num)).2 rfl

/-- C7: for a fitted `kenchi/base.py` detector whose `_threshold` is a
per-column array, `predict` labels a sample 1 (outlier) exactly when the
sample's score exceeds the threshold in at least one column, and 0
(inlier) exactly when no column exceeds its boundary. -/
theorem C7_per_column_any_exceeds {Data St : Type}
    (D : base.BaseDetector Data St) (st : St) (X : Data) (ts : List ℚ)
    (hth : D.threshOf st = some (.perColumn ts))
    (hrow : ∀ row ∈ D.compute_anomaly_score2 st X, row.length = ts.length) :
    ∃ out, (base.predict D st X).1 = .ok out ∧
      out.length = (D.compute_anomaly_score2 st X).length ∧
      ∀ i (h : i < out.length) (h2 : i < (D.compute_anomaly_score2 st X).length),
        (out[i] = 1 ↔ ∃ j, ∃ hj : j < ((D.compute_anomaly_score2 st X)[i]).length,
          ∃ hj2 : j < ts.length, ts[j] < ((D.compute_anomaly_score2 st X)[i])[j]) ∧
        (out[i] = 0 ↔ ¬ ∃ j, ∃ hj : j < ((D.compute_anomaly_score2 st X)[i]).length,
          ∃ hj2 : j < ts.length, ts[j] < ((D.compute_anomaly_score2 st X)[i])[j]) := by
  refine ⟨(D.compute_anomaly_score2 st X).map
      fun row => if base.anyExceeds row ts then (1 : ℤ) else 0,
    by simp [base.predict, hth], by simp, ?_⟩
  intro i h h2
  have hr : ((D.compute_anomaly_score2 st X)[i]).length = ts.length :=
    hrow _ (List.getElem_mem h2)
  have hiff := anyExceeds_iff hr
  rw [List.getElem_map]
  constructor
  · by_cases hc : base.anyExceeds ((D.compute_anomaly_score2 st X)[i]) ts
    · rw [if_pos hc]
      exact iff_of_true rfl (hiff.mp hc)
    · rw [if_neg hc]
      exact iff_of_false (by decide) fun hex => hc (hiff.mpr hex)
  · by_cases hc : base.anyExceeds ((D.compute_anomaly_score2 st X)[i]) ts
    · rw [if_pos hc]
      exact iff_of_false (by decide) (not_not_intro (hiff.mp hc))
    · rw [if_neg hc]
      exact iff_of_true rfl fun hex => hc (hiff.mpr hex)

/-- Witness for C7 at a concrete fitted detector with a two-column
threshold. -/
theorem C7_per_column_any_exceeds_witness :
    ∃ out, (base.predict idDetA (some (.perColumn [10, 1])) [0, 2]).1 = .ok out ∧
      out.length = (idDetA.compute_anomaly_score2 (some (.perColumn [10, 1])) [0, 2]).length ∧
      ∀ i (h : i < out.length)
        (h2 : i < (idDetA.compute_anomaly_score2 (some (.perColumn [10, 1])) [0, 2]).length),
        (out[i] = 1 ↔ ∃ j, ∃ hj : j <
            ((idDetA.compute_anomaly_score2 (some (.perColumn [10, 1])) [0, 2])[i]).length,
          ∃ hj2 : j < ([(10 : ℚ), 1]).length,
            ([(10 : ℚ), 1])[j] <
              ((idDetA.compute_anomaly_score2 (some (.perColumn [10, 1])) [0, 2])[i])[j]) ∧
        (out[i] = 0 ↔ ¬ ∃ j, ∃ hj : j <
            ((idDetA.compute_anomaly_score2 (some (.perColumn [10, 1])) [0, 2])[i]).length,
          ∃ hj2 : j < ([(10 : ℚ), 1]).length,
            ([(10 : ℚ), 1])[j] <
              ((idDetA.compute_anomaly_score2 (some (.perColumn [10, 1])) [0, 2])[i])[j]) :=
  C7_per_column_any_exceeds idDetA (some (.perColumn [10, 1])) [0, 2] [10, 1]
    rfl (by decide)

/-- C8 counterexample: with an empty anomaly-score array and the default
display options, `plot_anomaly_score` does not complete — computing the
default `ylim` evaluates `np.max` on a zero-size array, which raises
`ValueError`. -/
theorem C8_plot_empty_scores_counterexample :
    visualization.plot_anomaly_score [] none none none true =
      .error (.valueError
        "zero-size array to reduction operation maximum which has no identity") := rfl

/-- C8 amended: for every single-element — indeed every nonempty —
anomaly-score array, `plot_anomaly_score` completes without raising under
the default display options; the empty array raises `ValueError`. -/
theorem C8_plot_nonempty_completes (a : ℚ) (l : List ℚ) :
    ∃ r, visualization.plot_anomaly_score (a :: l) none none none true = .ok r ∧
      r.series = a :: l :=
  ⟨_, rfl, rfl⟩

end kenchi
